import Mathlib

/-!
Verification of the Policy Peek risk-keyword analysis and summarization
pipeline.  The definitions below are a shallow embedding of the two source
files: the background page/link scanner (`detectPolicyContent` in
`background.js`) and the popup's manual analyzer (`analyzeRiskFactors`,
`analyzePolicyText` and the analyze-button click handler in the popup
script).  JavaScript string primitives (`toLowerCase`, `trim`, `includes`,
`startsWith`, `endsWith`, `split(/\s+/)`, `replace(/\s+/g, r)`,
`replace(/[^\w\s]/g, '')`) are modelled over the character lists of Lean
strings; JavaScript numbers are modelled by `ℚ` (all scores are exact
multiples of 1/2, so this is faithful).
-/

namespace PolicyPeek

/-- JavaScript `s.toLowerCase()` (ASCII range, which covers every keyword
and every text used by the program). -/
def jsToLower (s : String) : String :=
  String.mk (s.data.map Char.toLower)

/-- JavaScript `s.trim()`: drop whitespace from both ends. -/
def jsTrim (s : String) : String :=
  String.mk (((s.data.dropWhile Char.isWhitespace).reverse.dropWhile
    Char.isWhitespace).reverse)

/-- JavaScript `s.includes(pat)`: substring containment. -/
def jsIncludes (s pat : String) : Bool :=
  decide (List.IsInfix pat.data s.data)

/-- JavaScript `s.startsWith(pre)`. -/
def jsStartsWith (s pre : String) : Bool :=
  decide (List.IsPrefix pre.data s.data)

/-- JavaScript `s.endsWith(suf)`. -/
def jsEndsWith (s suf : String) : Bool :=
  decide (List.IsSuffix suf.data s.data)

/-- Worker for `jsSplitWS`: splits a character list at maximal whitespace
runs, keeping the (possibly empty) pieces between them, exactly like
JavaScript `s.split(/\s+/)`.  `cur` holds the current piece reversed;
`inRun` records that the previous character belonged to a whitespace run
(whose piece has already been emitted). -/
def jsSplitWSGo : List Char → List Char → Bool → List String
  | [], cur, _ => [String.mk cur.reverse]
  | c :: rest, cur, inRun =>
    if c.isWhitespace then
      if inRun then jsSplitWSGo rest cur true
      else String.mk cur.reverse :: jsSplitWSGo rest [] true
    else
      jsSplitWSGo rest (c :: cur) false

/-- JavaScript `s.split(/\s+/)`. -/
def jsSplitWS (s : String) : List String :=
  jsSplitWSGo s.data [] false

/-- JavaScript `s.replace(/\s+/g, sep)`: each maximal whitespace run is
replaced by `sep` (equivalently, split on whitespace runs and rejoin). -/
def replaceWS (s sep : String) : String :=
  String.intercalate sep (jsSplitWS s)

/-- JavaScript `s.replace(/[^\w\s]/g, '')`: keep only word characters
(ASCII letters, digits, underscore) and whitespace. -/
def stripPunct (s : String) : String :=
  String.mk (s.data.filter (fun c => c.isAlphanum || c == '_' || c.isWhitespace))

/-- Result record of the popup's heuristic risk assessment
(`analyzeRiskFactors` in the popup script). -/
structure RiskAssessment where
  level : String
  description : String
  riskScore : ℚ
  foundRisks : List String
  foundPositives : List String
deriving Repr, DecidableEq

namespace Popup

/-- The popup's risk phrase list (`riskKeywords` in `analyzeRiskFactors`). -/
def riskKeywords : List String :=
  ["sell your data", "third parties", "advertising partners", "marketing purposes",
   "indefinitely", "permanent", "irrevocable", "without notice", "at our discretion",
   "no liability", "as is", "no warranty", "indemnify", "hold harmless"]

/-- The popup's positive/mitigating phrase list (`positiveKeywords`). -/
def positiveKeywords : List String :=
  ["not sell", "not share", "encrypted", "secure", "privacy protection",
   "opt-out", "delete your data", "user control", "transparent"]

/-- The score-to-level/description classification at the end of
`analyzeRiskFactors` (the if/else-if/else chain on `riskScore`). -/
def classify (riskScore : ℚ) (foundRisks foundPositives : List String) :
    RiskAssessment :=
  if 3 ≤ riskScore then
    { level := "risky"
      description := "Multiple risk factors detected. Review carefully before accepting."
      riskScore := riskScore
      foundRisks := foundRisks
      foundPositives := foundPositives }
  else if 1 ≤ riskScore then
    { level := "risky"
      description := "Some concerning terms found. Consider the implications."
      riskScore := riskScore
      foundRisks := foundRisks
      foundPositives := foundPositives }
  else
    { level := "safe"
      description := "No major red flags detected. Appears to be standard terms."
      riskScore := riskScore
      foundRisks := foundRisks
      foundPositives := foundPositives }

/-- The popup's heuristic risk scorer `analyzeRiskFactors(text)`: one pass
over `riskKeywords` (+1 per case-insensitive substring match, pushing the
phrase), one pass over `positiveKeywords` (−0.5 per match), then the
classification chain. -/
def analyzeRiskFactors (text : String) : RiskAssessment :=
  let afterRisk :=
    riskKeywords.foldl
      (fun st k =>
        if jsIncludes (jsToLower text) (jsToLower k) then (st.1 + 1, st.2 ++ [k])
        else st)
      ((0 : ℚ), ([] : List String))
  let afterPos :=
    positiveKeywords.foldl
      (fun st k =>
        if jsIncludes (jsToLower text) (jsToLower k) then (st.1 - 1/2, st.2 ++ [k])
        else st)
      (afterRisk.1, ([] : List String))
  classify afterPos.1 afterRisk.2 afterPos.2

/-- The risk phrases of `riskKeywords` matched (case-insensitively) in
`text`, in keyword order. -/
def matchedRisks (text : String) : List String :=
  riskKeywords.filter (fun k => jsIncludes (jsToLower text) (jsToLower k))

/-- The positive phrases of `positiveKeywords` matched in `text`. -/
def matchedPositives (text : String) : List String :=
  positiveKeywords.filter (fun k => jsIncludes (jsToLower text) (jsToLower k))

/-- Closed form of the popup's risk score. -/
def riskScoreOf (text : String) : ℚ :=
  (matchedRisks text).length - ((matchedPositives text).length : ℚ) / 2

/-- The optional AI text-transformation providers of the popup
(`window.ai.summarizer` / `window.ai.writer` / `window.ai.rewriter`).
`none` models an absent provider; a provider that returns `none` models a
`create`/transform call that throws (the popup catches the throw). -/
structure ProviderSet where
  summarizer : Option (String → Option String)
  writer : Option (String → Option String)
  rewriter : Option (String → Option String)

/-- The provider `o` is absent or every call to it throws. -/
def providerDead (o : Option (String → Option String)) : Prop :=
  ∀ f, o = some f → ∀ s, f s = none

/-- The prompt handed to the writer provider in `analyzePolicyText`. -/
def writerPrompt (summaryText : String) : String :=
  "Rewrite this privacy policy summary to highlight key risks and benefits in simple terms: "
    ++ summaryText

/-- The deterministic heuristic summary sentence of `analyzePolicyText`
(the last member of its `||` fallback chain). -/
def heuristicSummary (text : String) : String :=
  "Policy contains " ++ toString (jsSplitWS text).length
    ++ " words. Analysis based on risk keyword detection."

/-- Stage 1 of the summary pipeline: `summaryText` after the summarizer
block of `analyzePolicyText` (empty when the provider is absent or threw). -/
def stage1 (p : ProviderSet) (text : String) : String :=
  match p.summarizer with
  | none => ""
  | some f => (f text).getD ""

/-- Stage 2: `enhancedSummary` after the writer block.  Attempted only
when the writer is present and `summaryText` is truthy (non-empty); on a
throw it falls back to `summaryText`. -/
def stage2 (p : ProviderSet) (summaryText : String) : String :=
  match p.writer with
  | none => ""
  | some w =>
    if summaryText = "" then ""
    else match w (writerPrompt summaryText) with
      | some s => s
      | none => summaryText

/-- Stage 3: `enhancedSummary` after the rewriter block.  Attempted only
when the rewriter is present and the current `enhancedSummary` is
non-empty; on a throw the current value is kept. -/
def stage3 (p : ProviderSet) (enhanced : String) : String :=
  match p.rewriter with
  | none => enhanced
  | some r =>
    if enhanced = "" then enhanced
    else match r enhanced with
      | some s => s
      | none => enhanced

/-- JavaScript `a || b` on strings: `b` when `a` is falsy (empty). -/
def jsOrS (a b : String) : String :=
  if a = "" then b else a

/-- The popup's `analyzePolicyText(text)`: the three optional provider
stages, the local heuristic risk analysis, and the final summary chosen by
`enhancedSummary || summaryText || heuristic`.  Returns the pair that is
rendered (`finalSummary`, `riskAnalysis`). -/
def analyzePolicyText (p : ProviderSet) (text : String) :
    String × RiskAssessment :=
  let summaryText := stage1 p text
  let enhancedSummary := stage3 p (stage2 p summaryText)
  let riskAnalysis := analyzeRiskFactors text
  let finalSummary := jsOrS enhancedSummary (jsOrS summaryText (heuristicSummary text))
  (finalSummary, riskAnalysis)

/-- Outcome of a click on the popup's analyze button: either a validation
failure (an `alert` plus early return, with no analysis performed) or the
rendered analysis pair. -/
inductive ManualOutcome where
  | validationError : String → ManualOutcome
  | analyzed : String → RiskAssessment → ManualOutcome
deriving DecidableEq

/-- The analyze-button click handler: trims the textarea value, rejects
empty or sub-100-character input, otherwise runs `analyzePolicyText`. -/
def analyzeButtonClick (p : ProviderSet) (raw : String) : ManualOutcome :=
  let text := jsTrim raw
  if text = "" then
    .validationError "Please paste some policy text to analyze"
  else if text.length < 100 then
    .validationError "Please provide more text for a meaningful analysis (at least 100 characters)"
  else
    .analyzed (analyzePolicyText p text).1 (analyzePolicyText p text).2

end Popup

/-- A hyperlink as seen by the background content script: visible text
(`textContent`), resolved target URL (`href`), and the `aria-label` and
`title` attributes (empty when absent, as in the `|| ''` defaults). -/
structure LinkDescriptor where
  visibleText : String
  targetUrl : String
  accessibleName : String
  titleAttribute : String
deriving Repr, DecidableEq

/-- One deduplicated matched policy link recorded by the background
scanner: `{text: link.textContent.trim(), href: link.href}`. -/
structure PolicyMatch where
  text : String
  href : String
deriving Repr, DecidableEq

/-- The report returned by the background `detectPolicyContent`. -/
structure PageAnalysisReport where
  hasPolicyContent : Bool
  hasRiskyKeywords : Bool
  foundPolicyLinks : List PolicyMatch
  foundRiskyTerms : List String
  hostname : String
  url : String
deriving Repr

namespace Background

/-- The background script's policy-indicator phrase list
(`policyKeywords` in `detectPolicyContent`). -/
def policyKeywords : List String :=
  ["privacy policy", "terms of service", "terms and conditions",
   "cookie policy", "cookies policy", "data protection", "user agreement",
   "privacy notice", "terms of use", "legal notice", "gdpr", "ccpa",
   "cookie notice", "cookie consent", "privacy statement", "legal terms",
   "acceptable use", "end user license", "eula", "terms & conditions", "terms",
   "data policy", "cookie user", "cookie settings", "privacy settings",
   "manage cookies", "cookie preferences", "privacy center", "legal",
   "privacy rights", "data use policy", "cookie information", "cookie details",
   "privacy information", "cookie banner", "terms of use policy"]

/-- The background script's risky phrase list (`riskyKeywords` in
`detectPolicyContent`). -/
def riskyKeywords : List String :=
  ["sell your data", "third parties", "advertising partners",
   "indefinitely", "without notice", "at our discretion",
   "no liability", "as is", "no warranty"]

/-- The per-link, per-keyword `isMatch` disjunction of
`detectPolicyContent`: the nine normalized containment checks. -/
def isMatch (l : LinkDescriptor) (keyword : String) : Bool :=
  jsIncludes (jsTrim (jsToLower l.visibleText)) (jsToLower keyword) ||
  jsIncludes (jsToLower l.targetUrl) (replaceWS (jsToLower keyword) "") ||
  jsIncludes (jsToLower l.targetUrl) (replaceWS (jsToLower keyword) "-") ||
  jsIncludes (jsToLower l.targetUrl) (replaceWS (jsToLower keyword) "_") ||
  jsIncludes (jsToLower l.accessibleName) (jsToLower keyword) ||
  jsIncludes (jsToLower l.titleAttribute) (jsToLower keyword) ||
  jsIncludes (stripPunct (jsTrim (jsToLower l.visibleText))) (jsToLower keyword) ||
  jsStartsWith (jsTrim (jsToLower l.visibleText)) (jsToLower keyword) ||
  jsEndsWith (jsTrim (jsToLower l.visibleText)) (jsToLower keyword)

/-- The entry pushed for a matched link:
`{text: link.textContent.trim(), href: link.href}`. -/
def policyMatchOf (l : LinkDescriptor) : PolicyMatch :=
  { text := jsTrim l.visibleText, href := l.targetUrl }

/-- The `alreadyExists` duplicate check of `detectPolicyContent`:
some recorded entry has the same `href` and the same trimmed text. -/
def containsMatch (acc : List PolicyMatch) (e : PolicyMatch) : Bool :=
  acc.any (fun x => x.href == e.href && x.text == e.text)

/-- The inner `policyKeywords.forEach` loop body for one link. -/
def scanLinkKeywords (l : LinkDescriptor) (acc : List PolicyMatch) :
    List PolicyMatch :=
  policyKeywords.foldl
    (fun a kw =>
      if isMatch l kw then
        if containsMatch a (policyMatchOf l) then a else a ++ [policyMatchOf l]
      else a)
    acc

/-- The background link-scanning loop: the `links.forEach` of
`detectPolicyContent` accumulating `foundPolicyLinks` (before the cap). -/
def scanLinks (links : List LinkDescriptor) : List PolicyMatch :=
  links.foldl (fun acc l => scanLinkKeywords l acc) []

/-- The risky phrases of `riskyKeywords` found in the (lowercased) page
text, in keyword order — the uncapped `foundRiskyTerms`. -/
def matchedRiskyTerms (pageText : String) : List String :=
  riskyKeywords.filter (fun k => jsIncludes (jsToLower pageText) (jsToLower k))

/-- The background content-script function `detectPolicyContent`, with the
page text and link list supplied by the DOM collaborator.  The two flag
loops and the risky-term collection are embedded as folds mirroring the
`forEach` mutations; the two found lists are capped at 5 by `slice(0, 5)`. -/
def detectPolicyContent (pageText : String) (links : List LinkDescriptor)
    (hostname url : String) : PageAnalysisReport :=
  let lowText := jsToLower pageText
  let hasPolicy :=
    policyKeywords.foldl
      (fun fl k => if jsIncludes lowText (jsToLower k) then true else fl) false
  let riskySt :=
    riskyKeywords.foldl
      (fun st k =>
        if jsIncludes lowText (jsToLower k) then (true, st.2 ++ [k]) else st)
      (false, ([] : List String))
  let found := scanLinks links
  { hasPolicyContent := hasPolicy
    hasRiskyKeywords := riskySt.1
    foundPolicyLinks := found.take 5
    foundRiskyTerms := riskySt.2.take 5
    hostname := hostname
    url := url }

end Background

/-! ### Helper lemmas about the folds embedded from the forEach loops -/

/-- The risk pass of `analyzeRiskFactors`: closed form of the
(+1, push)-fold in terms of `filter`. -/
theorem riskfold_eq (pred : String → Bool) (kws : List String) :
    ∀ (q : ℚ) (acc : List String),
      kws.foldl (fun st k => if pred k then (st.1 + 1, st.2 ++ [k]) else st) (q, acc)
        = (q + ((kws.filter pred).length : ℚ), acc ++ kws.filter pred) := by
  induction kws with
  | nil => intro q acc; simp
  | cons k kws ih =>
    intro q acc
    cases hp : pred k with
    | true =>
      simp only [List.foldl_cons, hp, if_true, List.filter_cons]
      rw [ih (q + 1) (acc ++ [k])]
      simp only [List.length_cons, List.append_assoc, List.singleton_append,
        Prod.mk.injEq, and_true]
      push_cast
      ring
    | false =>
      simp only [List.foldl_cons, hp, List.filter_cons, Bool.false_eq_true,
        if_false]
      exact ih q acc

/-- The positive pass of `analyzeRiskFactors`: closed form of the
(−1/2, push)-fold in terms of `filter`. -/
theorem posfold_eq (pred : String → Bool) (kws : List String) :
    ∀ (q : ℚ) (acc : List String),
      kws.foldl (fun st k => if pred k then (st.1 - 1/2, st.2 ++ [k]) else st) (q, acc)
        = (q - ((kws.filter pred).length : ℚ) / 2, acc ++ kws.filter pred) := by
  induction kws with
  | nil => intro q acc; simp
  | cons k kws ih =>
    intro q acc
    cases hp : pred k with
    | true =>
      simp only [List.foldl_cons, hp, if_true, List.filter_cons]
      rw [ih (q - 1/2) (acc ++ [k])]
      simp only [List.length_cons, List.append_assoc, List.singleton_append,
        Prod.mk.injEq, and_true]
      push_cast
      ring
    | false =>
      simp only [List.foldl_cons, hp, List.filter_cons, Bool.false_eq_true,
        if_false]
      exact ih q acc

/-- The background risky pass: closed form of the (flag, push)-fold. -/
theorem riskyfold_eq (pred : String → Bool) (kws : List String) :
    ∀ (b : Bool) (acc : List String),
      kws.foldl (fun st k => if pred k then (true, st.2 ++ [k]) else st) (b, acc)
        = (b || kws.any pred, acc ++ kws.filter pred) := by
  induction kws with
  | nil => intro b acc; simp
  | cons k kws ih =>
    intro b acc
    cases hp : pred k with
    | true =>
      simp only [List.foldl_cons, hp, if_true, List.any_cons, List.filter_cons]
      rw [ih true (acc ++ [k])]
      simp
    | false =>
      simp only [List.foldl_cons, hp, List.any_cons, List.filter_cons,
        Bool.false_eq_true, if_false, Bool.false_or]
      exact ih b acc

/-- `classify` always stores the given score unchanged. -/
theorem classify_riskScore (q : ℚ) (r p : List String) :
    (Popup.classify q r p).riskScore = q := by
  unfold Popup.classify
  split_ifs <;> rfl

/-- `classify` always stores the given risk list unchanged. -/
theorem classify_foundRisks (q : ℚ) (r p : List String) :
    (Popup.classify q r p).foundRisks = r := by
  unfold Popup.classify
  split_ifs <;> rfl

/-- `classify` always stores the given positive list unchanged. -/
theorem classify_foundPositives (q : ℚ) (r p : List String) :
    (Popup.classify q r p).foundPositives = p := by
  unfold Popup.classify
  split_ifs <;> rfl

/-- `analyzeRiskFactors` in closed form: the classification of the
filter-based score and match lists. -/
theorem analyzeRiskFactors_eq (text : String) :
    Popup.analyzeRiskFactors text
      = Popup.classify (Popup.riskScoreOf text) (Popup.matchedRisks text)
          (Popup.matchedPositives text) := by
  simp only [Popup.analyzeRiskFactors, riskfold_eq, posfold_eq]
  simp only [Popup.riskScoreOf, Popup.matchedRisks, Popup.matchedPositives,
    zero_add, List.nil_append]

/-- The heuristic fallback sentence is never the empty string. -/
theorem heuristicSummary_ne_empty (text : String) :
    Popup.heuristicSummary text ≠ "" := by
  intro h
  have hlen := congrArg String.length h
  rw [Popup.heuristicSummary, String.length_append, String.length_append] at hlen
  have h1 : ("Policy contains " : String).length = 16 := rfl
  have h2 : ("" : String).length = 0 := rfl
  omega

/-- Stage 2 passes an empty stage-1 output through unchanged. -/
theorem stage2_empty (p : Popup.ProviderSet) : Popup.stage2 p "" = "" := by
  unfold Popup.stage2
  cases p.writer <;> simp

/-- Stage 3 passes an empty stage-2 output through unchanged. -/
theorem stage3_empty (p : Popup.ProviderSet) : Popup.stage3 p "" = "" := by
  unfold Popup.stage3
  cases p.rewriter <;> simp

/-- The risky flag computed by `detectPolicyContent` is the `any` of the
risky keyword matches. -/
theorem detect_hasRiskyKeywords (pageText : String) (links : List LinkDescriptor)
    (hostname url : String) :
    (Background.detectPolicyContent pageText links hostname url).hasRiskyKeywords
      = Background.riskyKeywords.any
          (fun k => jsIncludes (jsToLower pageText) (jsToLower k)) := by
  simp only [Background.detectPolicyContent, riskyfold_eq]
  simp

/-- The risky terms reported by `detectPolicyContent` are the first five
matched risky keywords. -/
theorem detect_foundRiskyTerms (pageText : String) (links : List LinkDescriptor)
    (hostname url : String) :
    (Background.detectPolicyContent pageText links hostname url).foundRiskyTerms
      = (Background.matchedRiskyTerms pageText).take 5 := by
  simp only [Background.detectPolicyContent, riskyfold_eq, Background.matchedRiskyTerms]
  simp

/-- The policy links reported by `detectPolicyContent` are the first five
entries of the link scan. -/
theorem detect_foundPolicyLinks (pageText : String) (links : List LinkDescriptor)
    (hostname url : String) :
    (Background.detectPolicyContent pageText links hostname url).foundPolicyLinks
      = (Background.scanLinks links).take 5 := rfl

/-- Two policy-match records agreeing on both fields are equal. -/
theorem policyMatch_eq_of (x e : PolicyMatch) (h1 : x.href = e.href)
    (h2 : x.text = e.text) : x = e := by
  cases x
  cases e
  cases h1
  cases h2
  rfl

/-- The duplicate check of the link scanner is exactly list membership. -/
theorem containsMatch_iff_mem (acc : List PolicyMatch) (e : PolicyMatch) :
    Background.containsMatch acc e = true ↔ e ∈ acc := by
  unfold Background.containsMatch
  rw [List.any_eq_true]
  constructor
  · rintro ⟨x, hx, hb⟩
    rw [Bool.and_eq_true, beq_iff_eq, beq_iff_eq] at hb
    exact policyMatch_eq_of x e hb.1 hb.2 ▸ hx
  · intro h
    exact ⟨e, h, by simp⟩

/-- A freshly appended entry is found by the duplicate check. -/
theorem containsMatch_append_self (acc : List PolicyMatch) (e : PolicyMatch) :
    Background.containsMatch (acc ++ [e]) e = true := by
  rw [containsMatch_iff_mem]
  simp

/-- Closed form of the per-link keyword loop: it appends the link's entry
exactly when some keyword matches and the entry is not yet recorded. -/
theorem scanLinkKeywords_eq (l : LinkDescriptor) :
    ∀ (kws : List String) (acc : List PolicyMatch),
      kws.foldl
        (fun a kw =>
          if Background.isMatch l kw then
            if Background.containsMatch a (Background.policyMatchOf l) then a
            else a ++ [Background.policyMatchOf l]
          else a)
        acc
      = if kws.any (fun kw => Background.isMatch l kw)
            && !Background.containsMatch acc (Background.policyMatchOf l) then
          acc ++ [Background.policyMatchOf l]
        else acc := by
  intro kws
  induction kws with
  | nil => intro acc; simp
  | cons kw kws ih =>
    intro acc
    cases hm : Background.isMatch l kw with
    | true =>
      cases hc : Background.containsMatch acc (Background.policyMatchOf l) with
      | true =>
        simp only [List.foldl_cons, hm, if_true, hc, List.any_cons]
        rw [ih acc]
        simp [hc]
      | false =>
        simp only [List.foldl_cons, hm, if_true, hc, List.any_cons,
          Bool.false_eq_true, if_false]
        rw [ih (acc ++ [Background.policyMatchOf l])]
        simp [containsMatch_append_self]
    | false =>
      simp only [List.foldl_cons, hm, List.any_cons, Bool.false_eq_true,
        if_false, Bool.false_or]
      exact ih acc

/-- The link loop extends its accumulator with a duplicate-free tail drawn
from the links in traversal order. -/
theorem scanLinks_aux :
    ∀ (links : List LinkDescriptor) (acc : List PolicyMatch),
      ∃ t, links.foldl (fun a l => Background.scanLinkKeywords l a) acc = acc ++ t
        ∧ List.Sublist t (links.map Background.policyMatchOf)
        ∧ (∀ e ∈ t, e ∉ acc) ∧ t.Nodup := by
  intro links
  induction links with
  | nil =>
    intro acc
    exact ⟨[], by simp, by simp, by simp, by simp⟩
  | cons l ls ih =>
    intro acc
    rw [List.foldl_cons]
    have hstep : Background.scanLinkKeywords l acc
        = if Background.policyKeywords.any (fun kw => Background.isMatch l kw)
              && !Background.containsMatch acc (Background.policyMatchOf l) then
            acc ++ [Background.policyMatchOf l]
          else acc := scanLinkKeywords_eq l Background.policyKeywords acc
    by_cases hcond : (Background.policyKeywords.any (fun kw => Background.isMatch l kw)
        && !Background.containsMatch acc (Background.policyMatchOf l)) = true
    · rw [hstep, if_pos hcond]
      obtain ⟨t', ht', hsub, hnotin, hnd⟩ := ih (acc ++ [Background.policyMatchOf l])
      have hfresh : Background.policyMatchOf l ∉ acc := by
        rw [Bool.and_eq_true, Bool.not_eq_eq_eq_not, Bool.not_true] at hcond
        intro hmem
        rw [← containsMatch_iff_mem acc (Background.policyMatchOf l)] at hmem
        rw [hcond.2] at hmem
        cases hmem
      refine ⟨Background.policyMatchOf l :: t', ?_, ?_, ?_, ?_⟩
      · rw [ht']
        simp
      · rw [List.map_cons]
        exact List.Sublist.cons₂ _ hsub
      · intro e he
        rcases List.mem_cons.mp he with he | he
        · rw [he]
          exact hfresh
        · intro hacc
          exact hnotin e he (List.mem_append_left _ hacc)
      · rw [List.nodup_cons]
        refine ⟨?_, hnd⟩
        intro hmem
        exact hnotin _ hmem (List.mem_append_right _ (List.mem_singleton.mpr rfl))
    · rw [hstep, if_neg hcond]
      obtain ⟨t', ht', hsub, hnotin, hnd⟩ := ih acc
      exact ⟨t', ht', by rw [List.map_cons]; exact hsub.cons _, hnotin, hnd⟩

/-! ### Claim theorems -/

/-- C1: for every provider set and input text the displayed summary of
`analyzePolicyText` is non-empty; and when every optional provider is
absent or throws, it is exactly the heuristic sentence
"Policy contains {wordCount} words. Analysis based on risk keyword
detection." with wordCount the whitespace-split token count of the text. -/
theorem summarize_nonempty_and_total_fallback :
    (∀ (p : Popup.ProviderSet) (text : String),
      (Popup.analyzePolicyText p text).1 ≠ "") ∧
    (∀ (p : Popup.ProviderSet) (text : String),
      Popup.providerDead p.summarizer → Popup.providerDead p.writer →
      Popup.providerDead p.rewriter →
      (Popup.analyzePolicyText p text).1 = Popup.heuristicSummary text) := by
  constructor
  · intro p text
    simp only [Popup.analyzePolicyText, Popup.jsOrS]
    split_ifs with h1 h2
    · exact heuristicSummary_ne_empty text
    · exact h2
    · exact h1
  · intro p text hs _ _
    have h1 : Popup.stage1 p text = "" := by
      unfold Popup.stage1
      cases hps : p.summarizer with
      | none => rfl
      | some f =>
        show (f text).getD "" = ""
        rw [hs f hps text]
        rfl
    simp only [Popup.analyzePolicyText, h1, stage2_empty, stage3_empty, Popup.jsOrS]
    simp

/-- C1 witness: with all three providers absent, the summary for
"hello world" is the heuristic sentence. -/
theorem summarize_nonempty_and_total_fallback_witness :
    (Popup.analyzePolicyText ⟨none, none, none⟩ "hello world").1
      = Popup.heuristicSummary "hello world" :=
  summarize_nonempty_and_total_fallback.2 ⟨none, none, none⟩ "hello world"
    (fun _ h => Option.noConfusion h) (fun _ h => Option.noConfusion h)
    (fun _ h => Option.noConfusion h)

/-- C2 counterexample: on a text scoring 3, the description produced by
`analyzeRiskFactors` is the source string "Multiple risk factors detected.
Review carefully before accepting.", not the claimed "multiple risk
factors, review carefully". -/
theorem risk_level_description_cex :
    (Popup.analyzeRiskFactors "sell your data to third parties without notice").riskScore
        = 3 ∧
    (Popup.analyzeRiskFactors "sell your data to third parties without notice").description
        = "Multiple risk factors detected. Review carefully before accepting." ∧
    (Popup.analyzeRiskFactors "sell your data to third parties without notice").description
        ≠ "multiple risk factors, review carefully" := by
  have hr : Popup.matchedRisks "sell your data to third parties without notice"
      = ["sell your data", "third parties", "without notice"] := by decide
  have hp : Popup.matchedPositives "sell your data to third parties without notice"
      = [] := by decide
  have hsc : Popup.riskScoreOf "sell your data to third parties without notice" = 3 := by
    unfold Popup.riskScoreOf
    rw [hr, hp]
    norm_num
  have he := analyzeRiskFactors_eq "sell your data to third parties without notice"
  rw [he, hsc]
  refine ⟨classify_riskScore 3 _ _, ?_, ?_⟩
  · unfold Popup.classify
    rw [if_pos (by norm_num : (3 : ℚ) ≤ 3)]
  · unfold Popup.classify
    rw [if_pos (by norm_num : (3 : ℚ) ≤ 3)]
    decide

/-- The level stored by `classify` as a single conditional. -/
theorem classify_level (q : ℚ) (r p : List String) :
    (Popup.classify q r p).level = if 1 ≤ q then "risky" else "safe" := by
  unfold Popup.classify
  split_ifs with h1 h2 <;>
    first
      | rfl
      | exact absurd (by linarith : (1 : ℚ) ≤ q) (by assumption)

/-- The description stored by `classify` as a single conditional. -/
theorem classify_description (q : ℚ) (r p : List String) :
    (Popup.classify q r p).description
      = if 3 ≤ q then "Multiple risk factors detected. Review carefully before accepting."
        else if 1 ≤ q then "Some concerning terms found. Consider the implications."
        else "No major red flags detected. Appears to be standard terms." := by
  unfold Popup.classify
  split_ifs <;> rfl

/-- C2 amended: the level is risky iff the score is at least 1, and the
three score bands produce the source's exact description strings. -/
theorem risk_level_classification (text : String) :
    ((Popup.analyzeRiskFactors text).level = "risky"
        ↔ 1 ≤ (Popup.analyzeRiskFactors text).riskScore) ∧
    (3 ≤ (Popup.analyzeRiskFactors text).riskScore →
      (Popup.analyzeRiskFactors text).description
        = "Multiple risk factors detected. Review carefully before accepting.") ∧
    (1 ≤ (Popup.analyzeRiskFactors text).riskScore ∧
        (Popup.analyzeRiskFactors text).riskScore < 3 →
      (Popup.analyzeRiskFactors text).description
        = "Some concerning terms found. Consider the implications.") ∧
    ((Popup.analyzeRiskFactors text).riskScore < 1 →
      (Popup.analyzeRiskFactors text).description
        = "No major red flags detected. Appears to be standard terms.") := by
  rw [analyzeRiskFactors_eq]
  generalize Popup.riskScoreOf text = q
  generalize Popup.matchedRisks text = r
  generalize Popup.matchedPositives text = po
  rw [classify_level, classify_description, classify_riskScore]
  refine ⟨?_, ?_, ?_, ?_⟩
  · split_ifs with h
    · simp [h]
    · exact ⟨fun hh => absurd hh (by decide), fun hq => absurd hq h⟩
  · intro h3
    rw [if_pos h3]
  · rintro ⟨hge, hlt⟩
    rw [if_neg (by linarith), if_pos hge]
  · intro h
    rw [if_neg (by linarith), if_neg (by linarith)]

/-- C2 witness: the strict band membership is realized at a concrete text
with score 3, yielding the "Multiple risk factors" description. -/
theorem risk_level_classification_witness :
    (Popup.analyzeRiskFactors "sell your data to third parties without notice").description
      = "Multiple risk factors detected. Review carefully before accepting." := by
  refine (risk_level_classification "sell your data to third parties without notice").2.1 ?_
  rw [analyzeRiskFactors_eq, classify_riskScore]
  have hr : Popup.matchedRisks "sell your data to third parties without notice"
      = ["sell your data", "third parties", "without notice"] := by decide
  have hp : Popup.matchedPositives "sell your data to third parties without notice"
      = [] := by decide
  unfold Popup.riskScoreOf
  rw [hr, hp]
  norm_num

/-- C3: the risk score equals the count of distinct matched risk phrases
minus half the count of distinct matched positive phrases (both keyword
lists are duplicate-free, so filter length counts distinct phrases); it is
unclamped: one risk plus one positive gives exactly 1/2, and a text with
only positive matches goes negative. -/
theorem riskScore_formula :
    Popup.riskKeywords.Nodup ∧ Popup.positiveKeywords.Nodup ∧
    (∀ text, (Popup.analyzeRiskFactors text).riskScore
        = ((Popup.matchedRisks text).length : ℚ)
          - (1/2) * ((Popup.matchedPositives text).length : ℚ)) ∧
    (Popup.analyzeRiskFactors "We do not sell your data.").riskScore = 1/2 ∧
    (Popup.analyzeRiskFactors "your data is encrypted and secure").riskScore = -1 := by
  refine ⟨by decide, by decide, ?_, ?_, ?_⟩
  · intro text
    rw [analyzeRiskFactors_eq, classify_riskScore]
    unfold Popup.riskScoreOf
    ring
  · rw [analyzeRiskFactors_eq, classify_riskScore]
    have hr : Popup.matchedRisks "We do not sell your data." = ["sell your data"] := by
      decide
    have hp : Popup.matchedPositives "We do not sell your data." = ["not sell"] := by
      decide
    unfold Popup.riskScoreOf
    rw [hr, hp]
    norm_num
  · rw [analyzeRiskFactors_eq, classify_riskScore]
    have hr : Popup.matchedRisks "your data is encrypted and secure" = [] := by
      decide
    have hp : Popup.matchedPositives "your data is encrypted and secure"
        = ["encrypted", "secure"] := by decide
    unfold Popup.riskScoreOf
    rw [hr, hp]
    norm_num

/-- C7: any input whose trimmed length is under 100 characters (including
length 0) is rejected by the click handler with a validation message, and
no analysis result is produced. -/
theorem manual_validation_rejects_short (p : Popup.ProviderSet) (raw : String)
    (h : (jsTrim raw).length < 100) :
    ∃ msg, Popup.analyzeButtonClick p raw = .validationError msg := by
  simp only [Popup.analyzeButtonClick]
  by_cases h0 : jsTrim raw = ""
  · rw [if_pos h0]
    exact ⟨_, rfl⟩
  · rw [if_neg h0, if_pos h]
    exact ⟨_, rfl⟩

/-- C7 witness: a 50-character text is rejected. -/
theorem manual_validation_rejects_short_witness :
    ∃ msg, Popup.analyzeButtonClick ⟨none, none, none⟩
      (String.mk (List.replicate 50 'a')) = .validationError msg :=
  manual_validation_rejects_short ⟨none, none, none⟩
    (String.mk (List.replicate 50 'a')) (by decide)

/-- C8 counterexample: with the condense provider absent and a reframe
provider present that would return "WRITER OUTPUT", the pipeline does not
apply reframe to the raw text — it returns the heuristic sentence. -/
theorem reframe_raw_text_cex :
    (Popup.analyzePolicyText ⟨none, some (fun _ => some "WRITER OUTPUT"), none⟩
        "hello world").1
      = "Policy contains 2 words. Analysis based on risk keyword detection." ∧
    (Popup.analyzePolicyText ⟨none, some (fun _ => some "WRITER OUTPUT"), none⟩
        "hello world").1
      ≠ "WRITER OUTPUT" := by
  refine ⟨by decide, by decide⟩

/-- C8 amended: the reframe stage is attempted only when condense produced
output — when condense is absent the result is the heuristic sentence
regardless of the reframe provider — and when condense produced `s` and
reframe throws (polish absent), the result falls back to `s` unchanged. -/
theorem reframe_gating (p : Popup.ProviderSet) (text : String) :
    (p.summarizer = none →
      (Popup.analyzePolicyText p text).1 = Popup.heuristicSummary text) ∧
    (∀ f s w, p.summarizer = some f → f text = some s → s ≠ "" →
      p.writer = some w → w (Popup.writerPrompt s) = none → p.rewriter = none →
      (Popup.analyzePolicyText p text).1 = s) := by
  constructor
  · intro hs
    have h1 : Popup.stage1 p text = "" := by
      unfold Popup.stage1
      rw [hs]
    simp only [Popup.analyzePolicyText, h1, stage2_empty, stage3_empty, Popup.jsOrS]
    simp
  · intro f s w hf hft hs hw hwp hr
    have h1 : Popup.stage1 p text = s := by
      unfold Popup.stage1
      rw [hf]
      show (f text).getD "" = s
      rw [hft]
      rfl
    have h2 : Popup.stage2 p s = s := by
      unfold Popup.stage2
      rw [hw]
      show (if s = "" then ""
        else match w (Popup.writerPrompt s) with
          | some t => t
          | none => s) = s
      rw [if_neg hs, hwp]
    have h3 : Popup.stage3 p s = s := by
      unfold Popup.stage3
      rw [hr]
    simp only [Popup.analyzePolicyText, h1, h2, h3, Popup.jsOrS]
    rw [if_neg hs]

/-- C8 witness: condense produces "CONDENSED", reframe throws, polish is
absent — the result is the stage-1 output unchanged. -/
theorem reframe_gating_witness :
    (Popup.analyzePolicyText
        ⟨some (fun _ => some "CONDENSED"), some (fun _ => none), none⟩ "abc").1
      = "CONDENSED" :=
  (reframe_gating ⟨some (fun _ => some "CONDENSED"), some (fun _ => none), none⟩
      "abc").2
    (fun _ => some "CONDENSED") "CONDENSED" (fun _ => none)
    rfl rfl (by decide) rfl rfl rfl

/-- C4: the link scanner declares a match exactly when one of the nine
normalized containment conditions holds (all case-insensitive): visible
text contains the phrase; the URL contains the phrase with whitespace
stripped, or replaced by "-", or by "_"; the aria-label contains it; the
title attribute contains it; the punctuation-stripped visible text
contains it; the visible text starts with it; the visible text ends with
it. -/
theorem link_match_conditions (l : LinkDescriptor) (kw : String) :
    Background.isMatch l kw = true ↔
      (List.IsInfix (jsToLower kw).data (jsTrim (jsToLower l.visibleText)).data
        ∨ List.IsInfix (replaceWS (jsToLower kw) "").data (jsToLower l.targetUrl).data
        ∨ List.IsInfix (replaceWS (jsToLower kw) "-").data (jsToLower l.targetUrl).data
        ∨ List.IsInfix (replaceWS (jsToLower kw) "_").data (jsToLower l.targetUrl).data
        ∨ List.IsInfix (jsToLower kw).data (jsToLower l.accessibleName).data
        ∨ List.IsInfix (jsToLower kw).data (jsToLower l.titleAttribute).data
        ∨ List.IsInfix (jsToLower kw).data
            (stripPunct (jsTrim (jsToLower l.visibleText))).data
        ∨ List.IsPrefix (jsToLower kw).data (jsTrim (jsToLower l.visibleText)).data
        ∨ List.IsSuffix (jsToLower kw).data (jsTrim (jsToLower l.visibleText)).data) := by
  unfold Background.isMatch jsIncludes jsStartsWith jsEndsWith
  simp only [Bool.or_eq_true, decide_eq_true_eq]
  tauto

/-- C5: the link scanner's result is a sublist of the per-link entries in
traversal order (hence at most one entry per link, each of the recorded
shape, in order), its length is at most the number of links, and no two
entries share the same (href, text) pair. -/
theorem scanLinks_dedup_order (links : List LinkDescriptor) :
    List.Sublist (Background.scanLinks links)
        (links.map Background.policyMatchOf) ∧
    (Background.scanLinks links).length ≤ links.length ∧
    List.Pairwise (fun a b => ¬(a.href = b.href ∧ a.text = b.text))
      (Background.scanLinks links) := by
  obtain ⟨t, ht, hsub, _, hnd⟩ := scanLinks_aux links []
  have hst : Background.scanLinks links = t := by
    unfold Background.scanLinks
    rw [ht]
    simp
  refine ⟨?_, ?_, ?_⟩
  · rw [hst]
    exact hsub
  · rw [hst]
    calc t.length ≤ (links.map Background.policyMatchOf).length := hsub.length_le
      _ = links.length := List.length_map _ _
  · rw [hst]
    refine List.Pairwise.imp ?_ hnd
    intro a b hne hcontra
    exact hne (policyMatch_eq_of a b hcontra.1 hcontra.2)

/-- C6: the page report keeps at most 5 policy links and at most 5 risky
terms, and the kept entries are prefixes of the full match lists (the
first matches in scan order — truncation, not sampling). -/
theorem analyzePage_truncation (pageText : String) (links : List LinkDescriptor)
    (hostname url : String) :
    (Background.detectPolicyContent pageText links hostname url).foundPolicyLinks.length ≤ 5 ∧
    (Background.detectPolicyContent pageText links hostname url).foundRiskyTerms.length ≤ 5 ∧
    (∃ rest, Background.scanLinks links
        = (Background.detectPolicyContent pageText links hostname url).foundPolicyLinks
            ++ rest) ∧
    (∃ rest, Background.matchedRiskyTerms pageText
        = (Background.detectPolicyContent pageText links hostname url).foundRiskyTerms
            ++ rest) := by
  rw [detect_foundPolicyLinks, detect_foundRiskyTerms]
  refine ⟨?_, ?_, ?_, ?_⟩
  · simp [List.length_take]
  · simp [List.length_take]
  · exact ⟨(Background.scanLinks links).drop 5, (List.take_append_drop 5 _).symm⟩
  · exact ⟨(Background.matchedRiskyTerms pageText).drop 5,
      (List.take_append_drop 5 _).symm⟩

/-- C9 counterexample: the background scanner and the popup scorer do not
share one risk keyword list — the constants differ, and the text
"data collected for marketing purposes" matches a risk term in the popup
scorer but none in the background scanner. -/
theorem risk_keyword_sets_differ_cex :
    Background.riskyKeywords ≠ Popup.riskKeywords ∧
    (Popup.analyzeRiskFactors "data collected for marketing purposes").foundRisks
        = ["marketing purposes"] ∧
    (Background.detectPolicyContent "data collected for marketing purposes" [] "" "").foundRiskyTerms
        = [] := by
  refine ⟨by decide, ?_, ?_⟩
  · rw [analyzeRiskFactors_eq, classify_foundRisks]
    decide
  · rw [detect_foundRiskyTerms]
    decide

/-- C9 amended: each component has its own immutable risk keyword
constant; the background list is a sublist of the popup list, so every
risk term the background scan reports on a text is also reported (in the
same order) by the popup scorer on that text, but not conversely. -/
theorem risk_keyword_sets_sublist :
    List.Sublist Background.riskyKeywords Popup.riskKeywords ∧
    ∀ (pageText : String) (links : List LinkDescriptor) (hostname url : String),
      List.Sublist
        (Background.detectPolicyContent pageText links hostname url).foundRiskyTerms
        (Popup.analyzeRiskFactors pageText).foundRisks := by
  refine ⟨by decide, ?_⟩
  intro pageText links hostname url
  rw [detect_foundRiskyTerms, analyzeRiskFactors_eq, classify_foundRisks]
  refine List.Sublist.trans (List.take_sublist 5 _) ?_
  unfold Background.matchedRiskyTerms Popup.matchedRisks
  exact List.Sublist.filter _ (by decide)

/-- C10: in every report of the background scanner, `hasRiskyKeywords` is
true exactly when `foundRiskyTerms` is non-empty. -/
theorem hasRiskyKeywords_iff_terms (pageText : String)
    (links : List LinkDescriptor) (hostname url : String) :
    (Background.detectPolicyContent pageText links hostname url).hasRiskyKeywords = true ↔
    (Background.detectPolicyContent pageText links hostname url).foundRiskyTerms ≠ [] := by
  rw [detect_hasRiskyKeywords, detect_foundRiskyTerms]
  rw [List.any_eq_true]
  constructor
  · rintro ⟨k, hk, hpk⟩ hnil
    rcases List.take_eq_nil_iff.mp hnil with h5 | hfil
    · exact absurd h5 (by decide)
    · rw [Background.matchedRiskyTerms, List.filter_eq_nil_iff] at hfil
      exact hfil k hk hpk
  · intro hne
    by_contra hall
    push_neg at hall
    apply hne
    rw [List.take_eq_nil_iff]
    right
    rw [Background.matchedRiskyTerms, List.filter_eq_nil_iff]
    intro a ha hpa
    exact absurd hpa (by simpa using hall a ha)

end PolicyPeek
